import Mathlib

/-!
Verification of the sign-to-text core of the ASL translator (src/Asl.py):
the rule-based group refiner, the subgroup/letter resolver with its
post-resolution overrides, and the token-stream assembler around
SignLanguageApp.predict, clear_sentence and update_frame.

Landmark coordinates are integer pixel positions, as delivered by the
hand-landmark extractor.  Euclidean distances in the source are computed
with math.sqrt over integer coordinates and compared against integer
thresholds; here every such comparison is encoded exactly over squared
distances (sqrt is monotone and the encodings below agree with the real
comparison in all cases, including ties).
-/

/-- Landmark point: an (x, y) integer pixel pair. -/
abbrev Pt : Type := ℤ × ℤ

/-- Landmark access, mirroring pts[i] on a 21-point list. -/
def lm (pts : List Pt) (i : ℕ) : Pt := pts.getD i (0, 0)

/-- The x coordinate pts[i][0]. -/
def px (pts : List Pt) (i : ℕ) : ℤ := (lm pts i).1

/-- The y coordinate pts[i][1]. -/
def py (pts : List Pt) (i : ℕ) : ℤ := (lm pts i).2

/-- Squared Euclidean distance between two landmarks, the radicand of the
source's distance(x, y) = sqrt((x0-y0)^2 + (x1-y1)^2). -/
def dist2 (a b : Pt) : ℤ := (a.1 - b.1) ^ 2 + (a.2 - b.2) ^ 2

/-- Encodes distance(pts[i], pts[j]) > c for a nonnegative threshold c:
sqrt d > c iff d > c^2. -/
abbrev dGt (pts : List Pt) (i j : ℕ) (c : ℤ) : Prop :=
  c ^ 2 < dist2 (lm pts i) (lm pts j)

/-- Encodes distance(pts[i], pts[j]) < c for a nonnegative threshold c:
sqrt d < c iff d < c^2. -/
abbrev dLt (pts : List Pt) (i j : ℕ) (c : ℤ) : Prop :=
  dist2 (lm pts i) (lm pts j) < c ^ 2

/-- Encodes distance(pts[i], pts[j]) - distance(pts[k], pts[l]) < c for a
nonnegative threshold c: with d1, d2 the squared distances,
sqrt d1 - sqrt d2 < c iff d1 - d2 - c^2 < 2 c sqrt d2, i.e. iff
d1 - d2 - c^2 < 0 or (d1 - d2 - c^2)^2 < 4 c^2 d2. -/
abbrev dDiffLt (pts : List Pt) (i j k l : ℕ) (c : ℤ) : Prop :=
  dist2 (lm pts i) (lm pts j) - dist2 (lm pts k) (lm pts l) - c ^ 2 < 0 ∨
  (dist2 (lm pts i) (lm pts j) - dist2 (lm pts k) (lm pts l) - c ^ 2) ^ 2 <
    4 * c ^ 2 * dist2 (lm pts k) (lm pts l)

/-- One refiner rule from the ordered table in predict: if the tested
(primary, secondary) pair pl lies in the trigger set tr and the geometric
predicate holds, the working group becomes tgt, otherwise it is kept. -/
def applyRuleAt (tr : List (ℕ × ℕ)) (pred : Prop) [Decidable pred]
    (tgt : ℕ) (pl : ℕ × ℕ) (c1 : ℕ) : ℕ :=
  if pl ∈ tr ∧ pred then tgt else c1

/-- A refiner rule that re-reads the current (ch1, ch2) pair when testing
trigger-set membership, as all rules from the third one onward do
(each is preceded by pl = [ch1, ch2] in the source). -/
def applyRule (tr : List (ℕ × ℕ)) (pred : Prop) [Decidable pred]
    (tgt : ℕ) (ch2 c1 : ℕ) : ℕ :=
  applyRuleAt tr pred tgt (c1, ch2) c1

/-- Rules 3..35 of the refiner table (source lines 461-708), in source
order, each re-reading the current (ch1, ch2) pair. -/
def refineAfter2 (pts : List Pt) (ch2 : ℕ) (c1 : ℕ) : ℕ :=
  c1
  |> applyRule [(0,0),(0,6),(0,2),(0,5),(0,1),(0,7),(5,2),(7,6),(7,1)]
      ((px pts 0 > px pts 8 ∧ px pts 0 > px pts 4 ∧ px pts 0 > px pts 12 ∧
        px pts 0 > px pts 16 ∧ px pts 0 > px pts 20) ∧ px pts 5 > px pts 4) 2 ch2
  |> applyRule [(6,0),(6,6),(6,2)] (dLt pts 8 16 52) 2 ch2
  |> applyRule [(1,4),(1,5),(1,6),(1,3),(1,0)]
      (py pts 6 > py pts 8 ∧ py pts 14 < py pts 16 ∧ py pts 18 < py pts 20 ∧
       px pts 0 < px pts 8 ∧ px pts 0 < px pts 12 ∧ px pts 0 < px pts 16 ∧
       px pts 0 < px pts 20) 3 ch2
  |> applyRule [(4,6),(4,1),(4,5),(4,3),(4,7)] (px pts 4 > px pts 0) 3 ch2
  |> applyRule [(5,3),(5,0),(5,7),(5,4),(5,2),(5,1),(5,5)]
      (py pts 2 + 15 < py pts 16) 3 ch2
  |> applyRule [(6,4),(6,1),(6,2)] (dGt pts 4 11 55) 4 ch2
  |> applyRule [(1,4),(1,6),(1,1)]
      (dGt pts 4 11 50 ∧
       (py pts 6 > py pts 8 ∧ py pts 10 < py pts 12 ∧ py pts 14 < py pts 16 ∧
        py pts 18 < py pts 20)) 4 ch2
  |> applyRule [(3,6),(3,4)] (px pts 4 < px pts 0) 4 ch2
  |> applyRule [(2,2),(2,5),(2,4)] (px pts 1 < px pts 12) 4 ch2
  |> applyRule [(3,6),(3,5),(3,4)]
      ((py pts 6 > py pts 8 ∧ py pts 10 < py pts 12 ∧ py pts 14 < py pts 16 ∧
        py pts 18 < py pts 20) ∧ py pts 4 > py pts 10) 5 ch2
  |> applyRule [(3,2),(3,1),(3,6)]
      (py pts 4 + 17 > py pts 8 ∧ py pts 4 + 17 > py pts 12 ∧
       py pts 4 + 17 > py pts 16 ∧ py pts 4 + 17 > py pts 20) 5 ch2
  |> applyRule [(4,4),(4,5),(4,2),(7,5),(7,6),(7,0)] (px pts 4 > px pts 0) 5 ch2
  |> applyRule [(0,2),(0,6),(0,1),(0,5),(0,0),(0,7),(0,4),(0,3),(2,7)]
      (px pts 0 < px pts 8 ∧ px pts 0 < px pts 12 ∧ px pts 0 < px pts 16 ∧
       px pts 0 < px pts 20) 5 ch2
  |> applyRule [(5,7),(5,2),(5,6)] (px pts 3 < px pts 0) 7 ch2
  |> applyRule [(4,6),(4,2),(4,4),(4,1),(4,5),(4,7)] (py pts 6 < py pts 8) 7 ch2
  |> applyRule [(6,7),(0,7),(0,1),(0,0),(6,4),(6,6),(6,5),(6,1)]
      (py pts 18 > py pts 20) 7 ch2
  |> applyRule [(0,4),(0,2),(0,3),(0,1),(0,6)] (px pts 5 > px pts 16) 6 ch2
  |> applyRule [(7,2)] (py pts 18 < py pts 20 ∧ py pts 8 < py pts 10) 6 ch2
  |> applyRule [(2,1),(2,2),(2,6),(2,7),(2,0)] (dGt pts 8 16 50) 6 ch2
  |> applyRule [(4,6),(4,2),(4,1),(4,4)] (dLt pts 4 11 60) 6 ch2
  |> applyRule [(1,4),(1,6),(1,0),(1,2)] (px pts 5 - px pts 4 - 15 > 0) 6 ch2
  |> applyRule [(5,0),(5,1),(5,4),(5,5),(5,6),(6,1),(7,6),(0,2),(7,1),(7,4),
      (6,6),(7,2),(5,0),(6,3),(6,4),(7,5),(7,2)]
      (py pts 6 > py pts 8 ∧ py pts 10 > py pts 12 ∧ py pts 14 > py pts 16 ∧
       py pts 18 > py pts 20) 1 ch2
  |> applyRule [(6,1),(6,0),(0,3),(6,4),(2,2),(0,6),(6,2),(7,6),(4,6),(4,1),
      (4,2),(0,2),(7,1),(7,4),(6,6),(7,2),(7,5),(7,2)]
      (py pts 6 < py pts 8 ∧ py pts 10 > py pts 12 ∧ py pts 14 > py pts 16 ∧
       py pts 18 > py pts 20) 1 ch2
  |> applyRule [(6,1),(6,0),(4,2),(4,1),(4,6),(4,4)]
      (py pts 10 > py pts 12 ∧ py pts 14 > py pts 16 ∧ py pts 18 > py pts 20) 1 ch2
  |> applyRule [(5,0),(3,4),(3,0),(3,1),(3,5),(5,5),(5,4),(5,1),(7,6)]
      ((py pts 6 > py pts 8 ∧ py pts 10 < py pts 12 ∧ py pts 14 < py pts 16 ∧
        py pts 18 < py pts 20) ∧ px pts 2 < px pts 0 ∧ py pts 4 > py pts 14) 1 ch2
  |> applyRule [(4,1),(4,2),(4,4)]
      (dLt pts 4 11 50 ∧
       (py pts 6 > py pts 8 ∧ py pts 10 < py pts 12 ∧ py pts 14 < py pts 16 ∧
        py pts 18 < py pts 20)) 1 ch2
  |> applyRule [(3,4),(3,0),(3,1),(3,5),(3,6)]
      ((py pts 6 > py pts 8 ∧ py pts 10 < py pts 12 ∧ py pts 14 < py pts 16 ∧
        py pts 18 < py pts 20) ∧ px pts 2 < px pts 0 ∧ py pts 14 < py pts 4) 1 ch2
  |> applyRule [(6,6),(6,4),(6,1),(6,2)] (px pts 5 - px pts 4 - 15 < 0) 1 ch2
  |> applyRule [(5,4),(5,5),(5,1),(0,3),(0,7),(5,0),(0,2),(6,2),(7,5),(7,1),
      (7,6),(7,7)]
      (py pts 6 < py pts 8 ∧ py pts 10 < py pts 12 ∧ py pts 14 < py pts 16 ∧
       py pts 18 > py pts 20) 1 ch2
  |> applyRule [(1,5),(1,7),(1,1),(1,6),(1,3),(1,0)]
      (px pts 4 < px pts 5 + 15 ∧
       (py pts 6 < py pts 8 ∧ py pts 10 < py pts 12 ∧ py pts 14 < py pts 16 ∧
        py pts 18 > py pts 20)) 7 ch2
  |> applyRule [(5,5),(5,0),(5,4),(5,1),(4,6),(4,1),(7,6),(3,0),(3,5)]
      ((py pts 6 > py pts 8 ∧ py pts 10 > py pts 12 ∧ py pts 14 < py pts 16 ∧
        py pts 18 < py pts 20) ∧ py pts 4 > py pts 14) 1 ch2
  |> applyRule [(3,5),(3,0),(3,6),(5,1),(4,1),(2,0),(5,0),(5,5)]
      (¬ (px pts 0 + 13 < px pts 8 ∧ px pts 0 + 13 < px pts 12 ∧
          px pts 0 + 13 < px pts 16 ∧ px pts 0 + 13 < px pts 20) ∧
       ¬ (px pts 0 > px pts 8 ∧ px pts 0 > px pts 12 ∧ px pts 0 > px pts 16 ∧
          px pts 0 > px pts 20) ∧ dLt pts 4 11 50) 1 ch2
  |> applyRule [(5,0),(5,5),(0,1)]
      (py pts 6 > py pts 8 ∧ py pts 10 > py pts 12 ∧ py pts 14 > py pts 16) 1 ch2

/-- The trigger set of the first refiner rule (source lines 446-448). -/
def trig1 : List (ℕ × ℕ) :=
  [(5,2),(5,3),(3,5),(3,6),(3,0),(3,2),(6,4),(6,1),(6,2),(6,6),(6,7),(6,0),
   (6,5),(4,1),(1,0),(1,1),(6,3),(1,6),(5,6),(5,1),(4,5),(1,4),(1,5),(2,0),
   (2,6),(4,6),(1,0),(5,7),(1,6),(6,1),(7,6),(2,5),(7,1),(5,4),(7,0),(7,5),
   (7,2)]

/-- The trigger set of the second refiner rule (source line 455). -/
def trig2 : List (ℕ × ℕ) := [(2,2),(2,1)]

/-- The geometric predicate of the first refiner rule. -/
abbrev pred1 (pts : List Pt) : Prop :=
  py pts 6 < py pts 8 ∧ py pts 10 < py pts 12 ∧ py pts 14 < py pts 16 ∧
  py pts 18 < py pts 20

/-- The geometric predicate of the second refiner rule. -/
abbrev pred2 (pts : List Pt) : Prop := px pts 5 < px pts 4

/-- The full refiner (source lines 442-708).  The source computes
pl = [ch1, ch2] once before the first rule and does not recompute it
before the second rule, so the second rule tests the pre-rule-1 pair;
every later rule recomputes pl. -/
def refineGroup (pts : List Pt) (ch1 ch2 : ℕ) : ℕ :=
  ch1
  |> applyRuleAt trig1 (pred1 pts) 0 (ch1, ch2)
  |> applyRuleAt trig2 (pred2 pts) 0 (ch1, ch2)
  |> refineAfter2 pts ch2

/-- The refiner as the specification states it: every rule, including the
second, re-reads the current (ch1, ch2) pair at the moment it executes. -/
def refineGroupFresh (pts : List Pt) (ch1 ch2 : ℕ) : ℕ :=
  let c := applyRuleAt trig1 (pred1 pts) 0 (ch1, ch2) ch1
  refineAfter2 pts ch2 (applyRuleAt trig2 (pred2 pts) 0 (c, ch2) c)

/-- Per-frame symbol value: in the source ch1 is an integer group index
until the subgroup section rewrites it to a string; group 1 can survive
the subgroup section unrewritten, so both shapes occur. -/
inductive Symb where
  | num (n : ℕ)
  | str (s : String)
deriving DecidableEq, Repr

/-- One overwriting subgroup or override test: if the predicate holds the
working value becomes the given letter, otherwise it is kept (the
source's independent if statements, not elif). -/
def ovr (p : Prop) [Decidable p] (s : String) (c : Symb) : Symb :=
  if p then Symb.str s else c

/-- Subgroup block for group 0 (source lines 713-725): base letter S,
sequentially overridden by the A/T/E/M/N thumb-position tests. -/
def subStep0 (pts : List Pt) (c : Symb) : Symb :=
  if c = Symb.num 0 then
    Symb.str "S"
    |> ovr (px pts 4 < px pts 6 ∧ px pts 4 < px pts 10 ∧
            px pts 4 < px pts 14 ∧ px pts 4 < px pts 18) "A"
    |> ovr (px pts 4 > px pts 6 ∧ px pts 4 < px pts 10 ∧
            px pts 4 < px pts 14 ∧ px pts 4 < px pts 18 ∧
            py pts 4 < py pts 14 ∧ py pts 4 < py pts 18) "T"
    |> ovr (py pts 4 > py pts 8 ∧ py pts 4 > py pts 12 ∧
            py pts 4 > py pts 16 ∧ py pts 4 > py pts 20) "E"
    |> ovr (px pts 4 > px pts 6 ∧ px pts 4 > px pts 10 ∧
            px pts 4 > px pts 14 ∧ py pts 4 < py pts 18) "M"
    |> ovr (px pts 4 > px pts 6 ∧ px pts 4 > px pts 10 ∧
            py pts 4 < py pts 18 ∧ py pts 4 < py pts 14) "N"
  else c

/-- Subgroup block for group 2 (source lines 727-731). -/
def subStep2 (pts : List Pt) (c : Symb) : Symb :=
  if c = Symb.num 2 then
    (if dGt pts 12 4 42 then Symb.str "C" else Symb.str "O")
  else c

/-- Subgroup block for group 3 (source lines 733-737). -/
def subStep3 (pts : List Pt) (c : Symb) : Symb :=
  if c = Symb.num 3 then
    (if dGt pts 8 12 72 then Symb.str "G" else Symb.str "H")
  else c

/-- Subgroup block for group 7 (source lines 739-743). -/
def subStep7 (pts : List Pt) (c : Symb) : Symb :=
  if c = Symb.num 7 then
    (if dGt pts 8 4 42 then Symb.str "Y" else Symb.str "J")
  else c

/-- Subgroup block for group 4 (source lines 745-746). -/
def subStep4 (_pts : List Pt) (c : Symb) : Symb :=
  if c = Symb.num 4 then Symb.str "L" else c

/-- Subgroup block for group 6 (source lines 748-749). -/
def subStep6 (_pts : List Pt) (c : Symb) : Symb :=
  if c = Symb.num 6 then Symb.str "X" else c

/-- Subgroup block for group 5 (source lines 751-758). -/
def subStep5 (pts : List Pt) (c : Symb) : Symb :=
  if c = Symb.num 5 then
    (if px pts 4 > px pts 12 ∧ px pts 4 > px pts 16 ∧ px pts 4 > px pts 20 then
       (if py pts 8 < py pts 5 then Symb.str "Z" else Symb.str "Q")
     else Symb.str "P")
  else c

/-- Subgroup block for group 1 (source lines 760-790): a sequence of
independently overwriting finger-extension tests; when none fires the
value stays the integer 1. -/
def subStep1 (pts : List Pt) (c : Symb) : Symb :=
  if c = Symb.num 1 then
    c
    |> ovr (py pts 6 > py pts 8 ∧ py pts 10 > py pts 12 ∧
            py pts 14 > py pts 16 ∧ py pts 18 > py pts 20) "B"
    |> ovr (py pts 6 > py pts 8 ∧ py pts 10 < py pts 12 ∧
            py pts 14 < py pts 16 ∧ py pts 18 < py pts 20) "D"
    |> ovr (py pts 6 < py pts 8 ∧ py pts 10 > py pts 12 ∧
            py pts 14 > py pts 16 ∧ py pts 18 > py pts 20) "F"
    |> ovr (py pts 6 < py pts 8 ∧ py pts 10 < py pts 12 ∧
            py pts 14 < py pts 16 ∧ py pts 18 > py pts 20) "I"
    |> ovr (py pts 6 > py pts 8 ∧ py pts 10 > py pts 12 ∧
            py pts 14 > py pts 16 ∧ py pts 18 < py pts 20) "W"
    |> ovr ((py pts 6 > py pts 8 ∧ py pts 10 > py pts 12 ∧
             py pts 14 < py pts 16 ∧ py pts 18 < py pts 20) ∧
            py pts 4 < py pts 9) "K"
    |> ovr (dDiffLt pts 8 12 6 10 8 ∧
            (py pts 6 > py pts 8 ∧ py pts 10 > py pts 12 ∧
             py pts 14 < py pts 16 ∧ py pts 18 < py pts 20)) "U"
    |> ovr (¬ dDiffLt pts 8 12 6 10 8 ∧
            (py pts 6 > py pts 8 ∧ py pts 10 > py pts 12 ∧
             py pts 14 < py pts 16 ∧ py pts 18 < py pts 20) ∧
            py pts 4 > py pts 9) "V"
    |> ovr (px pts 8 > px pts 12 ∧
            (py pts 6 > py pts 8 ∧ py pts 10 > py pts 12 ∧
             py pts 14 < py pts 16 ∧ py pts 18 < py pts 20)) "R"
  else c

/-- The whole subgroup section (source lines 713-790): the blocks run
sequentially, in source order, on the evolving value. -/
def resolveSub (pts : List Pt) (g : ℕ) : Symb :=
  Symb.num g
  |> subStep0 pts
  |> subStep2 pts
  |> subStep3 pts
  |> subStep7 pts
  |> subStep4 pts
  |> subStep6 pts
  |> subStep5 pts
  |> subStep1 pts

/-- Space override (source lines 792-795): the trigger test still
mentions the bare integer 1, which group 1 can have survived as. -/
def ovSpace (pts : List Pt) (c : Symb) : Symb :=
  if (c = Symb.num 1 ∨ c = Symb.str "E" ∨ c = Symb.str "S" ∨
      c = Symb.str "X" ∨ c = Symb.str "Y" ∨ c = Symb.str "B") ∧
     (py pts 6 > py pts 8 ∧ py pts 10 < py pts 12 ∧
      py pts 14 < py pts 16 ∧ py pts 18 > py pts 20) then
    Symb.str " "
  else c

/-- Next override (source lines 797-801). -/
def ovNext (pts : List Pt) (c : Symb) : Symb :=
  if (c = Symb.str "E" ∨ c = Symb.str "Y" ∨ c = Symb.str "B") ∧
     (px pts 4 < px pts 5) ∧
     (py pts 6 > py pts 8 ∧ py pts 10 > py pts 12 ∧
      py pts 14 > py pts 16 ∧ py pts 18 > py pts 20) then
    Symb.str "next"
  else c

/-- Truthiness of a string operand in the source language: a string is
truthy iff it is nonempty. -/
def strTruthy (s : String) : Bool := !s.isEmpty

/-- The symbol guard of the Backspace override, translated operand for
operand from the source disjunction
ch1 == 'Next' or 'B' or 'C' or 'H' or 'F' or 'X' (line 803): each bare
string literal contributes its own truthiness, not a comparison. -/
def bsGuard (c : Symb) : Bool :=
  (c == Symb.str "Next") || strTruthy "B" || strTruthy "C" || strTruthy "H" ||
  strTruthy "F" || strTruthy "X"

/-- The geometric predicate of the Backspace override (source lines
804-809): wrist right of the four fingertips, thumb tip above the four
fingertips and above the four middle joints. -/
abbrev bsPred (pts : List Pt) : Prop :=
  (px pts 0 > px pts 8 ∧ px pts 0 > px pts 12 ∧ px pts 0 > px pts 16 ∧
   px pts 0 > px pts 20) ∧
  (py pts 4 < py pts 8 ∧ py pts 4 < py pts 12 ∧ py pts 4 < py pts 16 ∧
   py pts 4 < py pts 20) ∧
  (py pts 4 < py pts 6 ∧ py pts 4 < py pts 10 ∧ py pts 4 < py pts 14 ∧
   py pts 4 < py pts 18)

/-- Backspace override (source lines 803-810), guarded by the always-true
disjunction bsGuard. -/
def ovBsp (pts : List Pt) (c : Symb) : Symb :=
  if bsGuard c = true ∧ bsPred pts then Symb.str "Backspace" else c

/-- The full per-frame symbol resolution from a refined group (source
lines 713-810): subgroup section, space and next overrides, then the
Backspace override. -/
def resolveSym (pts : List Pt) (g : ℕ) : Symb :=
  ovBsp pts (ovNext pts (ovSpace pts (resolveSub pts g)))

/-- The whole classification pipeline on one frame, from the top-2 coarse
groups and the landmarks to the resolved per-frame symbol (source lines
442-810).  The coarse classifier producing (ch1, ch2) is the external
collaborator; its output feeds in here. -/
def classify (pts : List Pt) (ch1 ch2 : ℕ) : Symb :=
  resolveSym pts (refineGroup pts ch1 ch2)

/-- Assembler state: the fields of SignLanguageApp that the token-stream
logic in predict reads and writes (source lines 108-113 and 812-829). -/
structure AsmState where
  str : String
  prev_char : Symb
  current_symbol : Symb
  ten_prev_char : List Symb
  count : ℤ

/-- Initial assembler state of a session (source lines 108-113). -/
def asmInit : AsmState :=
  { str := " "
    prev_char := Symb.str ""
    current_symbol := Symb.str "Empty"
    ten_prev_char := List.replicate 10 (Symb.str " ")
    count := -1 }

/-- History read ten_prev_char[k % 10]; Python's % on a positive modulus
is Int.emod, and the index is in range because the history always has
10 entries. -/
def histAt (st : AsmState) (k : ℤ) : Symb :=
  st.ten_prev_char.getD (k % 10).toNat (Symb.str "")

/-- String concatenation self.str + entry: appending a string succeeds;
appending an integer entry raises TypeError in the source, modelled as
none. -/
def appendSym (s : String) (c : Symb) : Option String :=
  match c with
  | Symb.str t => some (s ++ t)
  | Symb.num _ => none

/-- The new value of self.str computed by predict (source lines 812-824);
none when the run raises TypeError (a commit that appends an integer
history entry), in which case predict aborts before any state change. -/
def newStrOf (st : AsmState) (ch1 : Symb) : Option String :=
  let afterNext : Option String :=
    if ch1 = Symb.str "next" ∧ st.prev_char ≠ Symb.str "next" then
      let b := histAt st (st.count - 2)
      if b ≠ Symb.str "next" then
        if b = Symb.str "Backspace" then some (st.str.dropRight 1)
        else if b ≠ Symb.str "Backspace" then appendSym st.str b
        else some st.str
      else
        let b0 := histAt st (st.count - 0)
        if b0 ≠ Symb.str "Backspace" then appendSym st.str b0 else some st.str
    else some st.str
  match afterNext with
  | none => none
  | some s1 =>
      if ch1 = Symb.str "  " ∧ st.prev_char ≠ Symb.str "  " then some (s1 ++ "  ")
      else some s1

/-- One assembler transition on a resolved symbol (source lines 812-829).
When the text update raises (newStrOf is none) the exception propagates
out of predict before lines 826-829 run, so no field changes; otherwise
prev_char and current_symbol become the symbol, the counter advances,
and the history slot at the new counter value mod 10 is overwritten. -/
def assemble (st : AsmState) (ch1 : Symb) : AsmState :=
  match newStrOf st ch1 with
  | none => st
  | some s =>
      { str := s
        prev_char := ch1
        current_symbol := ch1
        ten_prev_char :=
          st.ten_prev_char.set ((st.count + 1) % 10).toNat ch1
        count := st.count + 1 }

/-- One full call of predict on a usable frame: classification followed
by the assembler transition.  The suggestion lookup and GUI updates that
follow (source lines 831-867) touch only the external suggestion port
and display, not these fields. -/
def predictStep (st : AsmState) (pts : List Pt) (ch1 ch2 : ℕ) : AsmState :=
  assemble st (classify pts ch1 ch2)

/-- The landmark gate of update_frame (source lines 910-913): predict
runs only when the detected frame has at least 21 landmark points;
otherwise the frame is dropped with no state change. -/
def update_frame (st : AsmState) (pts : List Pt) (ch1 ch2 : ℕ) : AsmState :=
  if 21 ≤ pts.length then predictStep st pts ch1 ch2 else st

/-- Application state around the assembler: the fields touched by
clear_sentence (source lines 414-423) beyond the assembler core. -/
structure AppState where
  asm : AsmState
  last_word : String
  word1 : String
  word2 : String
  word3 : String
  word4 : String

/-- Initial application state (source lines 102-120). -/
def initialApp : AppState :=
  { asm := asmInit
    last_word := ""
    word1 := " "
    word2 := " "
    word3 := " "
    word4 := " " }

/-- The clear operation (source lines 414-423): it sets self.str back to
a single space and blanks the suggestion words, and touches nothing
else; the remaining calls in it only update the display. -/
def clear_sentence (a : AppState) : AppState :=
  { a with
    asm := { a.asm with str := " " }
    last_word := ""
    word1 := " "
    word2 := " "
    word3 := " "
    word4 := " " }

/-- Convenience constructor for a 21-point landmark frame. -/
def mkPts (f : ℕ → ℤ × ℤ) : List Pt := (List.range 21).map f

/-- Concrete frame with pts[i] = (i, i): with coarse groups (1, 7) no
refiner rule fires and no group-1 letter test fires. -/
def ptsDiag : List Pt := mkPts (fun i => ((i : ℤ), (i : ℤ)))

/-- Concrete frame resolving to the space symbol for coarse groups
(1, 7): index fold, middle/ring extended, pinky fold. -/
def ptsSpace : List Pt := mkPts (fun i =>
  ((i : ℤ),
   if i = 6 then 10 else if i = 8 then 5 else
   if i = 10 then 5 else if i = 12 then 10 else
   if i = 14 then 5 else if i = 16 then 10 else
   if i = 18 then 10 else if i = 20 then 5 else (i : ℤ)))

/-- Concrete frame resolving to the next symbol for coarse groups
(1, 7): all four fingers folded, thumb left of the index base. -/
def ptsNextG : List Pt := mkPts (fun i =>
  ((i : ℤ),
   if i = 6 then 10 else if i = 8 then 5 else
   if i = 10 then 10 else if i = 12 then 5 else
   if i = 14 then 10 else if i = 16 then 5 else
   if i = 18 then 10 else if i = 20 then 5 else (i : ℤ)))

/-- Concrete closed-fist frame satisfying the Backspace override
predicate: wrist far right, thumb tip above everything. -/
def ptsFist : List Pt := mkPts (fun i =>
  (if i = 0 then 100 else (i : ℤ),
   if i = 4 then 0 else (50 + i : ℤ)))

/-- Concrete assembler state with Backspace buffered at slot
(count - 2) % 10 = 0. -/
def stBsp : AsmState :=
  { str := " HELLO"
    prev_char := Symb.str "O"
    current_symbol := Symb.str "O"
    ten_prev_char := Symb.str "Backspace" :: List.replicate 9 (Symb.str " ")
    count := 12 }

/-- Concrete assembler state with the integer symbol 1 buffered at slot
(count - 2) % 10 = 0, as a frame resolving to the unrefined group 1
leaves it there. -/
def stInt : AsmState :=
  { str := " "
    prev_char := Symb.str " "
    current_symbol := Symb.str " "
    ten_prev_char := Symb.num 1 :: List.replicate 9 (Symb.str " ")
    count := 12 }

/-- Concrete mid-session application state used against the clear
operation. -/
def appDirty : AppState :=
  { asm :=
      { str := " HI"
        prev_char := Symb.str "A"
        current_symbol := Symb.str "A"
        ten_prev_char := Symb.str "B" :: List.replicate 9 (Symb.str " ")
        count := 5 }
    last_word := "HI"
    word1 := "HI"
    word2 := " "
    word3 := " "
    word4 := " " }

/-- The symbol alphabet the specification allows per frame: the 26
uppercase letters and the three control tokens as the source spells them
(space, next, Backspace). -/
def okSyms : List Symb :=
  [Symb.str "A", Symb.str "B", Symb.str "C", Symb.str "D", Symb.str "E",
   Symb.str "F", Symb.str "G", Symb.str "H", Symb.str "I", Symb.str "J",
   Symb.str "K", Symb.str "L", Symb.str "M", Symb.str "N", Symb.str "O",
   Symb.str "P", Symb.str "Q", Symb.str "R", Symb.str "S", Symb.str "T",
   Symb.str "U", Symb.str "V", Symb.str "W", Symb.str "X", Symb.str "Y",
   Symb.str "Z", Symb.str " ", Symb.str "next", Symb.str "Backspace"]

/-- A symbol that is a string drawn from the allowed alphabet. -/
def StrOk (c : Symb) : Prop := ∃ s : String, c = Symb.str s ∧ c ∈ okSyms

/-- A value the resolver can produce: an allowed string symbol, or the
unrefined integer group 1. -/
def OkRes (c : Symb) : Prop := StrOk c ∨ c = Symb.num 1

theorem ovr_strOk (p : Prop) [Decidable p] {s : String} {c : Symb}
    (hs : Symb.str s ∈ okSyms) (hc : StrOk c) : StrOk (ovr p s c) := by
  unfold ovr; split
  · exact ⟨s, rfl, hs⟩
  · exact hc

theorem ovr_okRes (p : Prop) [Decidable p] {s : String} {c : Symb}
    (hs : Symb.str s ∈ okSyms) (hc : OkRes c) : OkRes (ovr p s c) := by
  unfold ovr; split
  · exact Or.inl ⟨s, rfl, hs⟩
  · exact hc

theorem subStep0_ok (pts : List Pt) : StrOk (subStep0 pts (Symb.num 0)) := by
  rw [subStep0, if_pos rfl]
  refine ovr_strOk _ (by decide) ?_
  refine ovr_strOk _ (by decide) ?_
  refine ovr_strOk _ (by decide) ?_
  refine ovr_strOk _ (by decide) ?_
  refine ovr_strOk _ (by decide) ?_
  exact ⟨"S", rfl, by decide⟩

theorem subStep2_ok (pts : List Pt) : StrOk (subStep2 pts (Symb.num 2)) := by
  rw [subStep2, if_pos rfl]
  split
  · exact ⟨"C", rfl, by decide⟩
  · exact ⟨"O", rfl, by decide⟩

theorem subStep3_ok (pts : List Pt) : StrOk (subStep3 pts (Symb.num 3)) := by
  rw [subStep3, if_pos rfl]
  split
  · exact ⟨"G", rfl, by decide⟩
  · exact ⟨"H", rfl, by decide⟩

theorem subStep7_ok (pts : List Pt) : StrOk (subStep7 pts (Symb.num 7)) := by
  rw [subStep7, if_pos rfl]
  split
  · exact ⟨"Y", rfl, by decide⟩
  · exact ⟨"J", rfl, by decide⟩

theorem subStep5_ok (pts : List Pt) : StrOk (subStep5 pts (Symb.num 5)) := by
  rw [subStep5, if_pos rfl]
  split
  · split
    · exact ⟨"Z", rfl, by decide⟩
    · exact ⟨"Q", rfl, by decide⟩
  · exact ⟨"P", rfl, by decide⟩

theorem subStep1_ok (pts : List Pt) : OkRes (subStep1 pts (Symb.num 1)) := by
  rw [subStep1, if_pos rfl]
  refine ovr_okRes _ (by decide) ?_
  refine ovr_okRes _ (by decide) ?_
  refine ovr_okRes _ (by decide) ?_
  refine ovr_okRes _ (by decide) ?_
  refine ovr_okRes _ (by decide) ?_
  refine ovr_okRes _ (by decide) ?_
  refine ovr_okRes _ (by decide) ?_
  refine ovr_okRes _ (by decide) ?_
  refine ovr_okRes _ (by decide) ?_
  exact Or.inr rfl

theorem subStep0_str (pts : List Pt) (s : String) :
    subStep0 pts (Symb.str s) = Symb.str s := by
  rw [subStep0, if_neg (by exact fun h => Symb.noConfusion h)]

theorem subStep2_str (pts : List Pt) (s : String) :
    subStep2 pts (Symb.str s) = Symb.str s := by
  rw [subStep2, if_neg (by exact fun h => Symb.noConfusion h)]

theorem subStep3_str (pts : List Pt) (s : String) :
    subStep3 pts (Symb.str s) = Symb.str s := by
  rw [subStep3, if_neg (by exact fun h => Symb.noConfusion h)]

theorem subStep7_str (pts : List Pt) (s : String) :
    subStep7 pts (Symb.str s) = Symb.str s := by
  rw [subStep7, if_neg (by exact fun h => Symb.noConfusion h)]

theorem subStep4_str (pts : List Pt) (s : String) :
    subStep4 pts (Symb.str s) = Symb.str s := by
  rw [subStep4, if_neg (by exact fun h => Symb.noConfusion h)]

theorem subStep6_str (pts : List Pt) (s : String) :
    subStep6 pts (Symb.str s) = Symb.str s := by
  rw [subStep6, if_neg (by exact fun h => Symb.noConfusion h)]

theorem subStep5_str (pts : List Pt) (s : String) :
    subStep5 pts (Symb.str s) = Symb.str s := by
  rw [subStep5, if_neg (by exact fun h => Symb.noConfusion h)]

theorem subStep1_str (pts : List Pt) (s : String) :
    subStep1 pts (Symb.str s) = Symb.str s := by
  rw [subStep1, if_neg (by exact fun h => Symb.noConfusion h)]

theorem resolveSub_ok (pts : List Pt) (g : ℕ) (hg : g ≤ 7) :
    OkRes (resolveSub pts g) := by
  unfold resolveSub
  interval_cases g
  · obtain ⟨s, hs, hm⟩ := subStep0_ok pts
    rw [hs, subStep2_str, subStep3_str, subStep7_str, subStep4_str,
        subStep6_str, subStep5_str, subStep1_str]
    exact Or.inl ⟨s, rfl, hs ▸ hm⟩
  · rw [show subStep0 pts (Symb.num 1) = Symb.num 1 from by
        rw [subStep0, if_neg (by decide)],
      show subStep2 pts (Symb.num 1) = Symb.num 1 from by
        rw [subStep2, if_neg (by decide)],
      show subStep3 pts (Symb.num 1) = Symb.num 1 from by
        rw [subStep3, if_neg (by decide)],
      show subStep7 pts (Symb.num 1) = Symb.num 1 from by
        rw [subStep7, if_neg (by decide)],
      show subStep4 pts (Symb.num 1) = Symb.num 1 from by
        rw [subStep4, if_neg (by decide)],
      show subStep6 pts (Symb.num 1) = Symb.num 1 from by
        rw [subStep6, if_neg (by decide)],
      show subStep5 pts (Symb.num 1) = Symb.num 1 from by
        rw [subStep5, if_neg (by decide)]]
    exact subStep1_ok pts
  · rw [show subStep0 pts (Symb.num 2) = Symb.num 2 from by
        rw [subStep0, if_neg (by decide)]]
    obtain ⟨s, hs, hm⟩ := subStep2_ok pts
    rw [hs, subStep3_str, subStep7_str, subStep4_str, subStep6_str,
        subStep5_str, subStep1_str]
    exact Or.inl ⟨s, rfl, hs ▸ hm⟩
  · rw [show subStep0 pts (Symb.num 3) = Symb.num 3 from by
        rw [subStep0, if_neg (by decide)],
      show subStep2 pts (Symb.num 3) = Symb.num 3 from by
        rw [subStep2, if_neg (by decide)]]
    obtain ⟨s, hs, hm⟩ := subStep3_ok pts
    rw [hs, subStep7_str, subStep4_str, subStep6_str, subStep5_str,
        subStep1_str]
    exact Or.inl ⟨s, rfl, hs ▸ hm⟩
  · rw [show subStep0 pts (Symb.num 4) = Symb.num 4 from by
        rw [subStep0, if_neg (by decide)],
      show subStep2 pts (Symb.num 4) = Symb.num 4 from by
        rw [subStep2, if_neg (by decide)],
      show subStep3 pts (Symb.num 4) = Symb.num 4 from by
        rw [subStep3, if_neg (by decide)],
      show subStep7 pts (Symb.num 4) = Symb.num 4 from by
        rw [subStep7, if_neg (by decide)],
      show subStep4 pts (Symb.num 4) = Symb.str "L" from by
        rw [subStep4, if_pos rfl],
      subStep6_str, subStep5_str, subStep1_str]
    exact Or.inl ⟨"L", rfl, by decide⟩
  · rw [show subStep0 pts (Symb.num 5) = Symb.num 5 from by
        rw [subStep0, if_neg (by decide)],
      show subStep2 pts (Symb.num 5) = Symb.num 5 from by
        rw [subStep2, if_neg (by decide)],
      show subStep3 pts (Symb.num 5) = Symb.num 5 from by
        rw [subStep3, if_neg (by decide)],
      show subStep7 pts (Symb.num 5) = Symb.num 5 from by
        rw [subStep7, if_neg (by decide)],
      show subStep4 pts (Symb.num 5) = Symb.num 5 from by
        rw [subStep4, if_neg (by decide)],
      show subStep6 pts (Symb.num 5) = Symb.num 5 from by
        rw [subStep6, if_neg (by decide)]]
    obtain ⟨s, hs, hm⟩ := subStep5_ok pts
    rw [hs, subStep1_str]
    exact Or.inl ⟨s, rfl, hs ▸ hm⟩
  · rw [show subStep0 pts (Symb.num 6) = Symb.num 6 from by
        rw [subStep0, if_neg (by decide)],
      show subStep2 pts (Symb.num 6) = Symb.num 6 from by
        rw [subStep2, if_neg (by decide)],
      show subStep3 pts (Symb.num 6) = Symb.num 6 from by
        rw [subStep3, if_neg (by decide)],
      show subStep7 pts (Symb.num 6) = Symb.num 6 from by
        rw [subStep7, if_neg (by decide)],
      show subStep4 pts (Symb.num 6) = Symb.num 6 from by
        rw [subStep4, if_neg (by decide)],
      show subStep6 pts (Symb.num 6) = Symb.str "X" from by
        rw [subStep6, if_pos rfl],
      subStep5_str, subStep1_str]
    exact Or.inl ⟨"X", rfl, by decide⟩
  · rw [show subStep0 pts (Symb.num 7) = Symb.num 7 from by
        rw [subStep0, if_neg (by decide)],
      show subStep2 pts (Symb.num 7) = Symb.num 7 from by
        rw [subStep2, if_neg (by decide)],
      show subStep3 pts (Symb.num 7) = Symb.num 7 from by
        rw [subStep3, if_neg (by decide)]]
    obtain ⟨s, hs, hm⟩ := subStep7_ok pts
    rw [hs, subStep4_str, subStep6_str, subStep5_str, subStep1_str]
    exact Or.inl ⟨s, rfl, hs ▸ hm⟩

theorem ovSpace_ok (pts : List Pt) {c : Symb} (hc : OkRes c) :
    OkRes (ovSpace pts c) := by
  rw [ovSpace]; split
  · exact Or.inl ⟨" ", rfl, by decide⟩
  · exact hc

theorem ovNext_ok (pts : List Pt) {c : Symb} (hc : OkRes c) :
    OkRes (ovNext pts c) := by
  rw [ovNext]; split
  · exact Or.inl ⟨"next", rfl, by decide⟩
  · exact hc

theorem ovBsp_ok (pts : List Pt) {c : Symb} (hc : OkRes c) :
    OkRes (ovBsp pts c) := by
  rw [ovBsp]; split
  · exact Or.inl ⟨"Backspace", rfl, by decide⟩
  · exact hc

theorem applyRuleAt_le {tr : List (ℕ × ℕ)} {pred : Prop} [Decidable pred]
    {tgt : ℕ} {pl : ℕ × ℕ} {c1 : ℕ} (ht : tgt ≤ 7) (hc : c1 ≤ 7) :
    applyRuleAt tr pred tgt pl c1 ≤ 7 := by
  unfold applyRuleAt; split
  · exact ht
  · exact hc

theorem refineAfter2_le (pts : List Pt) (ch2 : ℕ) {c1 : ℕ} (hc : c1 ≤ 7) :
    refineAfter2 pts ch2 c1 ≤ 7 := by
  unfold refineAfter2 applyRule
  iterate 33 refine applyRuleAt_le (by norm_num) ?_
  exact hc

theorem refineGroup_le (pts : List Pt) (ch1 ch2 : ℕ) (h : ch1 ≤ 7) :
    refineGroup pts ch1 ch2 ≤ 7 := by
  unfold refineGroup
  exact refineAfter2_le pts ch2
    (applyRuleAt_le (by norm_num) (applyRuleAt_le (by norm_num) h))

theorem getD_set_self {α : Type} (l : List α) {i : ℕ} (h : i < l.length)
    (a d : α) : (l.set i a).getD i d = a := by
  simp [List.getD_eq_getElem?_getD, List.getElem?_set_eq_of_lt, h]

theorem getD_set_self2 {α : Type} (l : List α) {i j : ℕ} (hij : i = j)
    (h : j < l.length) (a d : α) : (l.set i a).getD j d = a := by
  subst hij; exact getD_set_self l h a d

theorem getD_set_ne {α : Type} (l : List α) {i j : ℕ} (h : i ≠ j) (a d : α) :
    (l.set i a).getD j d = l.getD j d := by
  simp [List.getD_eq_getElem?_getD, List.getElem?_set_ne h]

theorem newStrOf_plain (st : AsmState) (ch : Symb) (hch : ch ≠ Symb.str "next") :
    newStrOf st ch =
      some (if ch = Symb.str "  " ∧ st.prev_char ≠ Symb.str "  " then
              st.str ++ "  " else st.str) := by
  simp only [newStrOf]
  rw [if_neg (fun hc => hch hc.1)]
  exact (apply_ite some _ _ _).symm

theorem assemble_count_of_some (st : AsmState) (ch : Symb) (s : String)
    (h : newStrOf st ch = some s) : (assemble st ch).count = st.count + 1 := by
  rw [assemble, h]

theorem assemble_prev_of_some (st : AsmState) (ch : Symb) (s : String)
    (h : newStrOf st ch = some s) : (assemble st ch).prev_char = ch := by
  rw [assemble, h]

theorem assemble_str_of_some (st : AsmState) (ch : Symb) (s : String)
    (h : newStrOf st ch = some s) : (assemble st ch).str = s := by
  rw [assemble, h]

theorem assemble_tpc_of_some (st : AsmState) (ch : Symb) (s : String)
    (h : newStrOf st ch = some s) :
    (assemble st ch).ten_prev_char =
      st.ten_prev_char.set ((st.count + 1) % 10).toNat ch := by
  rw [assemble, h]

theorem assembleNextEq (st : AsmState) (e : String)
    (hprev : st.prev_char ≠ Symb.str "next")
    (hbuf : histAt st (st.count - 2) = Symb.str e)
    (hne : e ≠ "next") :
    assemble st (Symb.str "next") =
      { str := if e = "Backspace" then st.str.dropRight 1 else st.str ++ e
        prev_char := Symb.str "next"
        current_symbol := Symb.str "next"
        ten_prev_char :=
          st.ten_prev_char.set ((st.count + 1) % 10).toNat (Symb.str "next")
        count := st.count + 1 } := by
  have hxe : Symb.str e ≠ Symb.str "next" := fun h => hne (Symb.str.inj h)
  have hbs : newStrOf st (Symb.str "next") =
      some (if e = "Backspace" then st.str.dropRight 1 else st.str ++ e) := by
    simp only [newStrOf]
    rw [if_pos ⟨trivial, hprev⟩, hbuf, if_pos hxe]
    by_cases hB : e = "Backspace"
    · subst hB; rfl
    · have hxb : Symb.str e ≠ Symb.str "Backspace" := fun h => hB (Symb.str.inj h)
      rw [if_neg (fun h => hxb h), if_pos hxb, if_neg hB]
      rfl
  rw [assemble, hbs]

/-- C1: on a frame resolving to NEXT with the previous frame's symbol not
NEXT and the history entry at (count - 2) mod 10 not NEXT, the assembler
removes exactly the last character of the assembled text when that entry
is Backspace (String.dropRight 1; a no-op on the empty text, as the
second clause states), and otherwise appends the buffered entry. -/
theorem next_commit_applies_buffered (st : AsmState) (e : String)
    (hprev : st.prev_char ≠ Symb.str "next")
    (hbuf : histAt st (st.count - 2) = Symb.str e)
    (hne : e ≠ "next") :
    ((assemble st (Symb.str "next")).str =
      if e = "Backspace" then st.str.dropRight 1 else st.str ++ e) ∧
    (e = "Backspace" → st.str = "" →
      (assemble st (Symb.str "next")).str = st.str) := by
  have h := assembleNextEq st e hprev hbuf hne
  constructor
  · rw [h]
  · intro hB hE
    rw [h, if_pos hB, hE]
    rfl

/-- Witness for C1: in the concrete state stBsp (text " HELLO", Backspace
buffered at slot (count - 2) mod 10), a NEXT frame leaves " HELL". -/
theorem next_commit_applies_buffered_witness :
    (assemble stBsp (Symb.str "next")).str = " HELL" := by
  have h := (next_commit_applies_buffered stBsp "Backspace"
    (by decide) (by decide) (by decide)).1
  rw [h]
  decide

set_option maxRecDepth 40000 in
/-- C2: the claim says a SPACE frame with previous symbol not SPACE
appends a double space; in the code the resolver emits a single space
" " (line 795) while the append branch tests for the two-space string
(line 823), so the branch never fires: at this concrete SPACE frame the
assembled text is unchanged. -/
theorem space_frame_appends_nothing_cx :
    classify ptsSpace 1 7 = Symb.str " " ∧
    (asmInit.prev_char == Symb.str " ") = false ∧
    (assemble asmInit (classify ptsSpace 1 7)).str = asmInit.str := by
  refine ⟨by decide, by decide, by decide⟩

/-- C3 (amended): the clear operation resets the assembled text to its
initial value (a single space) and blanks the suggestion words, but it
leaves previous_symbol, the 10-slot history and the frame counter
untouched. -/
theorem clear_resets_text_not_history (a : AppState) :
    (clear_sentence a).asm.str = initialApp.asm.str ∧
    (clear_sentence a).asm.prev_char = a.asm.prev_char ∧
    (clear_sentence a).asm.ten_prev_char = a.asm.ten_prev_char ∧
    (clear_sentence a).asm.count = a.asm.count ∧
    (clear_sentence a).last_word = "" ∧
    (clear_sentence a).word1 = " " ∧ (clear_sentence a).word2 = " " ∧
    (clear_sentence a).word3 = " " ∧ (clear_sentence a).word4 = " " :=
  ⟨rfl, rfl, rfl, rfl, rfl, rfl, rfl, rfl, rfl⟩

/-- Counterexample to C3: clearing the concrete mid-session state
appDirty restores the text but none of previous_symbol, history or
counter match their initial session values. -/
theorem clear_keeps_history_cx :
    (clear_sentence appDirty).asm.str = initialApp.asm.str ∧
    ((clear_sentence appDirty).asm.count == initialApp.asm.count) = false ∧
    ((clear_sentence appDirty).asm.prev_char ==
      initialApp.asm.prev_char) = false ∧
    ((clear_sentence appDirty).asm.ten_prev_char ==
      initialApp.asm.ten_prev_char) = false := by
  refine ⟨rfl, by decide, by decide, by decide⟩

/-- C4: the refiner behaves exactly as if every rule re-read the current
(ch1, ch2) pair at the moment it executes: the code-faithful refiner
(whose second rule tests the stale pre-rule-1 pair) coincides with the
fresh-re-read refiner on every frame and every group pair. -/
theorem refiner_reads_current_pair (pts : List Pt) (ch1 ch2 : ℕ) :
    refineGroup pts ch1 ch2 = refineGroupFresh pts ch1 ch2 := by
  simp only [refineGroup, refineGroupFresh]
  congr 1
  by_cases h : ((ch1, ch2) ∈ trig1 ∧ pred1 pts)
  · rw [show applyRuleAt trig1 (pred1 pts) 0 (ch1, ch2) ch1 = 0 from by
        rw [applyRuleAt, if_pos h]]
    unfold applyRuleAt
    split <;> split <;> rfl
  · rw [show applyRuleAt trig1 (pred1 pts) 0 (ch1, ch2) ch1 = ch1 from by
        rw [applyRuleAt, if_neg h]]

/-- C5 (amended): on every 21-point frame and group pair the resolved
symbol is one of the 26 letters or the control tokens space, next and
Backspace, or it is the bare integer group index 1, which survives when
none of the group-1 letter tests fires. -/
theorem classify_in_alphabet_or_group1 (pts : List Pt) (ch1 ch2 : ℕ)
    (h21 : pts.length = 21) (h1 : ch1 ≤ 7) (h2 : ch2 ≤ 7) :
    classify pts ch1 ch2 ∈ okSyms ∨ classify pts ch1 ch2 = Symb.num 1 := by
  unfold classify resolveSym
  rcases ovBsp_ok pts (ovNext_ok pts (ovSpace_ok pts
      (resolveSub_ok pts _ (refineGroup_le pts ch1 ch2 h1)))) with ⟨s, hs, hm⟩ | h
  · exact Or.inl hm
  · exact Or.inr h

set_option maxRecDepth 40000 in
/-- Witness for C5 (amended) at the concrete frame ptsNextG with group
pair (1, 7). -/
theorem classify_in_alphabet_or_group1_witness :
    ptsNextG.length = 21 ∧ (1 : ℕ) ≤ 7 ∧ (7 : ℕ) ≤ 7 ∧
    (classify ptsNextG 1 7 ∈ okSyms ∨ classify ptsNextG 1 7 = Symb.num 1) :=
  ⟨by decide, by decide, by decide,
   classify_in_alphabet_or_group1 ptsNextG 1 7 (by decide) (by decide)
     (by decide)⟩

set_option maxRecDepth 40000 in
/-- Counterexample to C5: on the valid 21-point frame ptsDiag with group
pair (1, 7), the resolved symbol is the unrefined integer group index 1,
not a letter or control token. -/
theorem classify_unrefined_group_cx :
    classify ptsDiag 1 7 = Symb.num 1 ∧
    okSyms.contains (Symb.num 1) = false ∧
    ptsDiag.length = 21 := by
  refine ⟨by decide, by decide, by decide⟩

/-- C6: the Backspace override's symbol guard, the source disjunction
ch1 == 'Next' or 'B' or 'C' or 'H' or 'F' or 'X', is true for every
symbol, so its geometric predicate is evaluated on every frame, and
whenever that predicate holds the resolved symbol is Backspace
regardless of the group. -/
theorem backspace_override_always_evaluated :
    (∀ c : Symb, bsGuard c = true) ∧
    ∀ (pts : List Pt) (g : ℕ), bsPred pts →
      resolveSym pts g = Symb.str "Backspace" := by
  have hg : ∀ c : Symb, bsGuard c = true := by
    intro c
    have hB : strTruthy "B" = true := rfl
    simp [bsGuard, hB]
  refine ⟨hg, ?_⟩
  intro pts g h
  unfold resolveSym ovBsp
  rw [if_pos ⟨hg _, h⟩]

/-- Witness for C6 at the concrete closed-fist frame ptsFist. -/
theorem backspace_override_always_evaluated_witness :
    bsGuard (Symb.num 3) = true ∧ bsPred ptsFist ∧
    resolveSym ptsFist 0 = Symb.str "Backspace" :=
  ⟨backspace_override_always_evaluated.1 (Symb.num 3), by decide,
   backspace_override_always_evaluated.2 ptsFist 0 (by decide)⟩

/-- C7 (amended): the symbol a NEXT frame commits is the one resolved
exactly three frames before the trigger, not two: feeding any state the
symbols s, b, c and then NEXT (with c and the entry s not NEXT
themselves) commits s, via the read at (count - 2) mod 10 against the
pre-increment counter. -/
theorem commit_three_frames_back (st : AsmState) (b c : Symb) (s : String)
    (hlen : st.ten_prev_char.length = 10) (hs1 : s ≠ "next")
    (hbn : b ≠ Symb.str "next") (hcn : c ≠ Symb.str "next") :
    (assemble (assemble (assemble (assemble st (Symb.str s)) b) c)
        (Symb.str "next")).str =
      if s = "Backspace" then
        (assemble (assemble (assemble st (Symb.str s)) b) c).str.dropRight 1
      else (assemble (assemble (assemble st (Symb.str s)) b) c).str ++ s := by
  have hsx : Symb.str s ≠ Symb.str "next" := fun h => hs1 (Symb.str.inj h)
  have n1 := newStrOf_plain st (Symb.str s) hsx
  have c1 := assemble_count_of_some _ _ _ n1
  have t1 := assemble_tpc_of_some _ _ _ n1
  have n2 := newStrOf_plain (assemble st (Symb.str s)) b hbn
  have c2 := assemble_count_of_some _ _ _ n2
  have t2 := assemble_tpc_of_some _ _ _ n2
  have n3 := newStrOf_plain (assemble (assemble st (Symb.str s)) b) c hcn
  have c3 := assemble_count_of_some _ _ _ n3
  have t3 := assemble_tpc_of_some _ _ _ n3
  have p3 := assemble_prev_of_some _ _ _ n3
  have hbuf : histAt (assemble (assemble (assemble st (Symb.str s)) b) c)
      ((assemble (assemble (assemble st (Symb.str s)) b) c).count - 2) =
      Symb.str s := by
    rw [histAt, t3, t2, t1, c3, c2, c1]
    rw [getD_set_ne _ (by omega), getD_set_ne _ (by omega)]
    exact getD_set_self2 _ (by omega) (by rw [hlen]; omega) _ _
  have h := assembleNextEq _ s (by rw [p3]; exact hcn) hbuf hs1
  rw [h]

/-- Witness for C7 (amended): from the initial state, the run H, A, B,
NEXT commits H (the symbol three frames before the trigger). -/
theorem commit_three_frames_back_witness :
    (assemble (assemble (assemble (assemble asmInit (Symb.str "H"))
        (Symb.str "A")) (Symb.str "B")) (Symb.str "next")).str = " H" := by
  have h := commit_three_frames_back asmInit (Symb.str "A") (Symb.str "B") "H"
    (by decide) (by decide) (by decide) (by decide)
  rw [h]
  decide

/-- Counterexample to C7 as stated: in the run H, A, B, NEXT the symbol
resolved exactly two frames before the trigger is A, yet the text
becomes " H" (the symbol from three frames back), not " A". -/
theorem commit_lag_cx :
    (assemble (assemble (assemble (assemble asmInit (Symb.str "H"))
        (Symb.str "A")) (Symb.str "B")) (Symb.str "next")).str = " " ++ "H" ∧
    ((" " ++ "H" : String) == " " ++ "A") = false := by
  refine ⟨by decide, by decide⟩

/-- C8: two consecutive NEXT frames never commit twice: the second NEXT
frame leaves the assembled text unchanged, and the first frame either
completed (setting previous_symbol to NEXT) or changed nothing at all. -/
theorem double_next_suppressed (st : AsmState) :
    (assemble (assemble st (Symb.str "next")) (Symb.str "next")).str =
      (assemble st (Symb.str "next")).str ∧
    ((assemble st (Symb.str "next")).prev_char = Symb.str "next" ∨
      assemble st (Symb.str "next") = st) := by
  cases h : newStrOf st (Symb.str "next") with
  | none =>
      have h1 : assemble st (Symb.str "next") = st := by rw [assemble, h]
      constructor
      · rw [h1, h1]
      · exact Or.inr h1
  | some s =>
      have hp : (assemble st (Symb.str "next")).prev_char = Symb.str "next" :=
        assemble_prev_of_some st _ s h
      constructor
      · have h2 : newStrOf (assemble st (Symb.str "next")) (Symb.str "next") =
            some ((assemble st (Symb.str "next")).str) := by
          simp only [newStrOf]
          rw [if_neg (fun hc => hc.2 hp)]
          rfl
        exact assemble_str_of_some _ _ _ h2
      · exact Or.inl hp

/-- C9: a captured frame with fewer than 21 landmark points never reaches
the classification pipeline and leaves the whole assembler state (text,
history, previous symbol, counter) unchanged. -/
theorem short_frames_rejected (st : AsmState) (pts : List Pt) (c1 c2 : ℕ)
    (h : pts.length < 21) : update_frame st pts c1 c2 = st := by
  rw [update_frame, if_neg (by omega)]

/-- Witness for C9 on the empty landmark list. -/
theorem short_frames_rejected_witness :
    ([] : List Pt).length < 21 ∧ update_frame asmInit [] 0 0 = asmInit :=
  ⟨by decide, short_frames_rejected asmInit [] 0 0 (by decide)⟩

/-- C10 (amended): every classification call whose text update does not
raise (the commit, if any, appends a string history entry) increments
the counter by exactly one and overwrites exactly the slot at the new
counter value mod 10 with the frame's resolved symbol, keeping the other
nine slots and the length 10. -/
theorem classification_updates_counter_and_slot (st : AsmState)
    (pts : List Pt) (c1 c2 : ℕ) (s : String)
    (hlen : st.ten_prev_char.length = 10)
    (hok : newStrOf st (classify pts c1 c2) = some s) :
    (predictStep st pts c1 c2).count = st.count + 1 ∧
    (predictStep st pts c1 c2).ten_prev_char.length = 10 ∧
    histAt (predictStep st pts c1 c2) (st.count + 1) = classify pts c1 c2 ∧
    ∀ j : ℕ, j < 10 → j ≠ ((st.count + 1) % 10).toNat →
      (predictStep st pts c1 c2).ten_prev_char.getD j (Symb.str "") =
        st.ten_prev_char.getD j (Symb.str "") := by
  refine ⟨assemble_count_of_some _ _ _ hok, ?_, ?_, ?_⟩
  · rw [predictStep, assemble_tpc_of_some _ _ _ hok, List.length_set, hlen]
  · rw [histAt, predictStep, assemble_tpc_of_some _ _ _ hok]
    exact getD_set_self _ (by rw [hlen]; omega) _ _
  · intro j hj hne
    rw [predictStep, assemble_tpc_of_some _ _ _ hok,
      getD_set_ne _ (fun hx => hne hx.symm)]

set_option maxRecDepth 40000 in
/-- Witness for C10 (amended): a call on the initial state with the
frame ptsDiag advances the counter to 0 and stores the resolved symbol
at slot 0. -/
theorem classification_updates_counter_and_slot_witness :
    (predictStep asmInit ptsDiag 1 7).count = asmInit.count + 1 ∧
    histAt (predictStep asmInit ptsDiag 1 7) (asmInit.count + 1) =
      classify ptsDiag 1 7 := by
  have h := classification_updates_counter_and_slot asmInit ptsDiag 1 7 " "
    (by decide) (by decide)
  exact ⟨h.1, h.2.2.1⟩

set_option maxRecDepth 40000 in
/-- Counterexample to C10 as stated: in the state stInt (integer symbol 1
buffered at the committed slot), a classification call resolving to NEXT
raises on the string concatenation and changes neither the counter nor
any history slot. -/
theorem classification_abort_cx :
    classify ptsNextG 1 7 = Symb.str "next" ∧
    (predictStep stInt ptsNextG 1 7).count = stInt.count ∧
    ((predictStep stInt ptsNextG 1 7).count == stInt.count + 1) = false ∧
    (predictStep stInt ptsNextG 1 7).ten_prev_char = stInt.ten_prev_char := by
  refine ⟨by decide, by decide, by decide, by decide⟩
